import Mathlib

/-!
Verification of the tokenizers-benchmark scripts.

The repository contains three near-duplicate Deno/TypeScript scripts:
* the first half of `run.ts` — a simple CSV-to-stdout token counter;
* the second half of `run.ts` (called the `Bench` variant below) — a batch
  runner that persists one CSV and one model-metadata JSON artifact per
  model, with skip/override semantics;
* `src/unnamed/part_001` (called the `Rep` variant below) — a batch runner
  that builds an in-memory `ModelReport` per model, saves one report file
  per run and appends an entry to a persistent `reports.json` index.

This file is a shallow embedding of the parts of those scripts that the
claims are about.  Network and filesystem effects are made explicit:
* a probe call's outcome is a `ProbeResponse` value supplied by the
  environment;
* a file's readability and contents are an `Option String` supplied by the
  environment (`none` models a read error);
* the side effects performed by a `processModel` invocation are collected
  in an explicit trace of `SideEffect`s plus a list of written `Artifact`s.

TypeScript `number` fields holding token counts are modelled as `Nat`
(token usage counts are non-negative integers); cost fields are modelled
as `Rat`.  The JavaScript truthiness test `if (x)` on such a field is
`x ≠ 0` (the `NaN` case does not arise for these types).
-/

/-- A model descriptor from the catalog.  The scripts only ever inspect the
`id` field of a model (for resolution and for sorting); the remaining
optional metadata fields of the TypeScript `Model` interface are carried
opaquely by the real code and are omitted here. -/
structure Model where
  id : String
deriving DecidableEq, Repr

/-- The `usage` object of a parsed chat-completions response body
(TypeScript interface `TokenUsage`).  All three fields may be absent at
runtime even though `prompt_tokens` is declared required, which is exactly
why the code guards with `data.usage?.prompt_tokens`. -/
structure Usage where
  prompt_tokens : Option Nat
  cost : Option Rat
  estimated_cost : Option Rat
deriving DecidableEq, Repr

/-- JavaScript `x || y` on an optional numeric field: the result is `y`
when `x` is `undefined` or `0` (falsy), otherwise `x`. -/
def jsNumOr (x : Option Rat) (y : Rat) : Rat :=
  match x with
  | none => y
  | some v => if v = 0 then y else v

/-- Outcome of one HTTP probe call, as seen by `countTokens` after the
`fetch`: a thrown network error, a non-ok HTTP status, a body that fails
`JSON.parse`, or a parsed body whose `usage` field may be absent. -/
inductive ProbeResponse where
  | transportError
  | httpError (status : Nat)
  | parseError
  | ok (usage : Option Usage)
deriving DecidableEq, Repr

/-- Successful result of `countTokens` (TypeScript `TokenCountResult`). -/
structure TokenCountResult where
  tokens : Nat
  estimatedCost : Rat
deriving DecidableEq, Repr

/-- `countTokens` from the Bench variant of `run.ts` (lines 571–693) and
`src/unnamed/part_001` (lines 109–231); the two are identical.  All
failure paths return `null`; on a parsed body the code tests
`if (data.usage?.prompt_tokens)` — a truthiness test, so a present but
zero `prompt_tokens` also fails — and on success returns
`data.usage.prompt_tokens` with
`data.usage.cost || data.usage.estimated_cost || 0` as the cost. -/
def countTokens : ProbeResponse → Option TokenCountResult
  | .transportError => none
  | .httpError _ => none
  | .parseError => none
  | .ok usage =>
    match usage with
    | none => none
    | some u =>
      match u.prompt_tokens with
      | none => none
      | some t =>
        if t = 0 then none
        else some { tokens := t, estimatedCost := jsNumOr u.cost (jsNumOr u.estimated_cost 0) }

/-- Word delimiters of `countWords`: the regex class
`[\s\n\r\t.,;:!?()[\]{}"'-]`.  `\s` is modelled by `Char.isWhitespace`. -/
def isWordDelimiter (c : Char) : Bool :=
  c.isWhitespace ||
    c ∈ ['.', ',', ';', ':', '!', '?', '(', ')', '[', ']', '{', '}', '"', '\'', '-']

/-- `countWords`: split the text on runs of delimiters and count the
non-empty pieces.  Splitting per delimiter character and filtering empty
pieces yields the same count as the JavaScript split on `[...]+`. -/
def countWords (text : String) : Nat :=
  ((text.toList.splitOnP isWordDelimiter).filter (fun w => w.length > 0)).length

/-- Split a character list at every occurrence of `sep`, like the
JavaScript `split` with a single-character separator.  Defined by
structural recursion (unlike core `String.splitOn`) so that concrete
instances evaluate inside proofs. -/
def splitOnChar (sep : Char) : List Char → List (List Char)
  | [] => [[]]
  | c :: rest =>
    if c = sep then [] :: splitOnChar sep rest
    else
      match splitOnChar sep rest with
      | [] => [[c]]
      | w :: ws => (c :: w) :: ws

/-- `suffix.isSuffixOf s`, as the JavaScript `endsWith`; stated on the
character lists so that concrete instances evaluate inside proofs. -/
def strEndsWith (s suffix : String) : Bool :=
  suffix.toList.isSuffixOf s.toList

/-- `filePath.split('/').pop() || filePath`: the last `/`-separated
component, or the whole path when that component is the empty string. -/
def filenameOf (filePath : String) : String :=
  match (splitOnChar '/' filePath.toList).getLast? with
  | none => filePath
  | some last => if last = [] then filePath else String.mk last

/-- `readFileContent`: returns the file contents, or `""` when
`Deno.readTextFileSync` throws (modelled as `none`). -/
def readFileContent (diskContent : Option String) : String :=
  match diskContent with
  | some s => s
  | none => ""

/-- One directory entry of the corpus directory as seen by
`Deno.readDirSync`. -/
structure DirEntry where
  name : String
  isFile : Bool
deriving DecidableEq, Repr

/-- `entry.name.replace(/\.txt$/, '')`: drop a final `.txt` if present. -/
def stripTxtExtension (name : String) : String :=
  if strEndsWith name ".txt" then String.mk (name.toList.take (name.toList.length - 4))
  else name

/-- The language filter test inside `getFilesToProcess`: with a filter the
name with `.txt` stripped must equal the filter exactly. -/
def matchesLanguageFilter (languageFilter : Option String) (name : String) : Bool :=
  match languageFilter with
  | none => true
  | some lf => stripTxtExtension name = lf

/-- Lexicographic string sort, modelling `Array.prototype.sort()` with the
default comparator on the all-ASCII corpus paths. -/
def sortStrings (l : List String) : List String :=
  l.insertionSort (· ≤ ·)

/-- `getFilesToProcess(languageFilter?)` of the Bench variant (`run.ts`
lines 708–731, identical in `part_001` lines 246–269): keep regular files
ending in `.txt`, excluding the reserved `models.txt`, apply the exact
language-filter match, prefix with the corpus directory and sort. -/
def getFilesToProcess (entries : List DirEntry) (languageFilter : Option String) :
    List String :=
  sortStrings
    (((entries.filter (fun e =>
        e.isFile && strEndsWith e.name ".txt" && e.name != "models.txt" &&
          matchesLanguageFilter languageFilter e.name)).map
      (fun e => "./udhr/" ++ e.name)))

/-- A JSON field of the parsed models-endpoint response: absent, present
but not an array (this includes falsy values — both fail the code's
`data.data && Array.isArray(data.data)` test the same way), or an array of
model objects. -/
inductive JsonField where
  | absent
  | nonArray
  | arr (ms : List Model)
deriving DecidableEq, Repr

/-- The parsed models-endpoint response body: a bare array, an object with
its `data` and `models` fields, or a primitive (number/string/bool/null —
anything failing both the `Array.isArray(data)` test and the
`data && typeof data === 'object'` test). -/
inductive ModelsJson where
  | arr (ms : List Model)
  | obj (dataField : JsonField) (modelsField : JsonField)
  | prim
deriving DecidableEq, Repr

/-- Comparator of the final `modelsArray.sort((a, b) => a.id.localeCompare(b.id))`. -/
def modelIdLe (a b : Model) : Prop := a.id ≤ b.id

instance : DecidableRel modelIdLe := fun a b => inferInstanceAs (Decidable (a.id ≤ b.id))

instance : IsTotal Model modelIdLe := ⟨fun a b => le_total a.id b.id⟩

instance : IsTrans Model modelIdLe := ⟨fun _ _ _ h h' => le_trans h h'⟩

/-- The in-place `sort` by `id` at the end of `getAllModels`. -/
def sortModels (ms : List Model) : List Model :=
  ms.insertionSort modelIdLe

/-- The response-shape normalization and sort of `getAllModels` (`run.ts`
lines 936–1040, identical in `part_001` lines 467–571), applied to an
already fetched and JSON-parsed body.  Exceptions thrown by the code are
modelled as `Except.error` with the thrown message. -/
def getAllModels : ModelsJson → Except String (List Model)
  | .arr ms => .ok (sortModels ms)
  | .obj (.arr ms) _ => .ok (sortModels ms)
  | .obj .absent (.arr ms) => .ok (sortModels ms)
  | .obj .nonArray (.arr ms) => .ok (sortModels ms)
  | .obj .absent .absent =>
      .error "Invalid response format from API: expected array or object with 'data' or 'models' property"
  | .obj .absent .nonArray =>
      .error "Invalid response format from API: expected array or object with 'data' or 'models' property"
  | .obj .nonArray .absent =>
      .error "Invalid response format from API: expected array or object with 'data' or 'models' property"
  | .obj .nonArray .nonArray =>
      .error "Invalid response format from API: expected array or object with 'data' or 'models' property"
  | .prim => .error "Invalid response format from API: expected array or object"

/-- The environment's answer for one corpus file: its path, its on-disk
content (`none` = unreadable), and the probe response the external service
would give for its content under the current model. -/
structure FileCase where
  path : String
  disk : Option String
  response : ProbeResponse
deriving DecidableEq, Repr

/-- Externally observable side effects of a `processModel` invocation. -/
inductive SideEffect where
  | resolveModel
  | readFile (path : String)
  | probe (path : String)
  | delay
deriving DecidableEq, Repr

/-- Artifacts the Bench variant's `processModel` can write for a model. -/
inductive Artifact where
  | modelJson
  | resultsCsv
deriving DecidableEq, Repr

namespace Bench

/-- `ModelProcessingStats` of the Bench variant of `run.ts`. -/
structure ModelProcessingStats where
  modelId : String
  totalFiles : Nat
  successfulFiles : Nat
  errors : List String
  totalTokens : Nat
  totalEstimatedCost : Rat
  skipped : Bool
  hasErrors : Bool
deriving DecidableEq, Repr

/-- Mutable state of the file loop in the Bench variant's `processModel`
(`run.ts` lines 1206–1246), plus the trace of effects performed so far. -/
structure LoopState where
  csvLines : List String
  totalFiles : Nat
  successfulFiles : Nat
  totalTokens : Nat
  totalEstimatedCost : Rat
  errors : List String
  trace : List SideEffect
deriving DecidableEq, Repr

/-- Loop state before the first file: `csvLines` holds the header row. -/
def initLoopState : LoopState :=
  { csvLines := ["filename,characters,words,tokens,model_id"]
    totalFiles := 0
    successfulFiles := 0
    totalTokens := 0
    totalEstimatedCost := 0
    errors := []
    trace := [] }

/-- One CSV data row:
`${filename},${content.length},${wordCount},${result.tokens},${modelId}`. -/
def csvLine (filename : String) (characters words tokens : Nat) (modelId : String) : String :=
  filename ++ "," ++ toString characters ++ "," ++ toString words ++ ","
    ++ toString tokens ++ "," ++ modelId

/-- One iteration of the Bench file loop (`run.ts` lines 1214–1246).
A file whose content is empty (unreadable, or genuinely empty) records a
read error and `continue`s — before `totalFiles++` and before the delay.
Otherwise the probe runs; both probe outcomes then reach `totalFiles++`
and the 500 ms delay. -/
def step (modelId : String) (s : LoopState) (f : FileCase) : LoopState :=
  let filename := filenameOf f.path
  let content := readFileContent f.disk
  if content = "" then
    { s with
      errors := s.errors ++ ["Failed to read file: " ++ filename]
      trace := s.trace ++ [SideEffect.readFile f.path] }
  else
    let s1 := { s with trace := s.trace ++ [SideEffect.readFile f.path, SideEffect.probe f.path] }
    let s2 :=
      match countTokens f.response with
      | some result =>
        { s1 with
          csvLines := s1.csvLines ++
            [csvLine filename content.length (countWords content) result.tokens modelId]
          successfulFiles := s1.successfulFiles + 1
          totalTokens := s1.totalTokens + result.tokens
          totalEstimatedCost := s1.totalEstimatedCost + result.estimatedCost }
      | none =>
        { s1 with errors := s1.errors ++ ["Token counting failed for file: " ++ filename] }
    { s2 with totalFiles := s2.totalFiles + 1, trace := s2.trace ++ [SideEffect.delay] }

/-- Environment of one Bench `processModel` invocation: the flag and
artifact-existence facts consulted by the skip check, the result of model
resolution, the corpus files (already enumerated and filtered), and
whether each artifact write would succeed. -/
structure Env where
  modelId : String
  override : Bool
  csvExists : Bool
  jsonExists : Bool
  modelInfo : Option Model
  files : List FileCase
  writeJsonOk : Bool
  writeCsvOk : Bool
deriving DecidableEq, Repr

/-- Final state of the file loop. -/
def loopFinal (env : Env) : LoopState :=
  env.files.foldl (step env.modelId) initLoopState

/-- The stats record shared by the post-loop return points of
`processModel`; only `errors` and `hasErrors` differ between them. -/
def statsWith (env : Env) (s : LoopState) (errors : List String) (hasErrors : Bool) :
    ModelProcessingStats :=
  { modelId := env.modelId
    totalFiles := s.totalFiles
    successfulFiles := s.successfulFiles
    errors := errors
    totalTokens := s.totalTokens
    totalEstimatedCost := s.totalEstimatedCost
    skipped := false
    hasErrors := hasErrors }

/-- `processModel` of the Bench variant (`run.ts` lines 1132–1323),
returning the stats together with the trace of effects and the list of
artifacts actually written.  Control flow, in source order: the skip
check (unless `--override`), model resolution, the file loop, the
early return when `errors.length > 0`, then the JSON write followed by
the CSV write, each failed write appending its own error and returning. -/
def processModel (env : Env) : ModelProcessingStats × List SideEffect × List Artifact :=
  if !env.override && (env.csvExists || env.jsonExists) then
    ({ modelId := env.modelId
       totalFiles := 0
       successfulFiles := 0
       errors := []
       totalTokens := 0
       totalEstimatedCost := 0
       skipped := true
       hasErrors := false }, [], [])
  else
    match env.modelInfo with
    | none =>
      ({ modelId := env.modelId
         totalFiles := 0
         successfulFiles := 0
         errors := ["Model " ++ env.modelId ++ " not found in API"]
         totalTokens := 0
         totalEstimatedCost := 0
         skipped := false
         hasErrors := true }, [SideEffect.resolveModel], [])
    | some _ =>
      let s := loopFinal env
      let trace := SideEffect.resolveModel :: s.trace
      if s.errors.length > 0 then
        (statsWith env s s.errors true, trace, [])
      else if !env.writeJsonOk then
        (statsWith env s (s.errors ++ ["Failed to save model info"]) true, trace, [])
      else if !env.writeCsvOk then
        (statsWith env s (s.errors ++ ["Failed to save CSV"]) true, trace,
         [Artifact.modelJson])
      else
        (statsWith env s s.errors (decide (s.errors.length > 0)), trace,
         [Artifact.modelJson, Artifact.resultsCsv])

end Bench

namespace Rep

/-- `FileResult` of `src/unnamed/part_001`. -/
structure FileResult where
  filename : String
  characters : Nat
  words : Nat
  tokens : Nat
deriving DecidableEq, Repr

/-- The `stats` sub-record of a `ModelReport`. -/
structure ModelStats where
  totalFiles : Nat
  successfulFiles : Nat
  totalTokens : Nat
  totalEstimatedCost : Rat
  errors : List String
deriving DecidableEq, Repr

/-- `ModelReport` of `src/unnamed/part_001`. -/
structure ModelReport where
  modelId : String
  modelInfo : Option Model
  results : List FileResult
  stats : ModelStats
deriving DecidableEq, Repr

/-- Mutable state of the file loop in `part_001`'s `processModel`
(lines 697–742), plus the trace of effects performed so far. -/
structure LoopState where
  results : List FileResult
  totalFiles : Nat
  successfulFiles : Nat
  totalTokens : Nat
  totalEstimatedCost : Rat
  errors : List String
  trace : List SideEffect
deriving DecidableEq, Repr

/-- Loop state before the first file. -/
def initLoopState : LoopState :=
  { results := []
    totalFiles := 0
    successfulFiles := 0
    totalTokens := 0
    totalEstimatedCost := 0
    errors := []
    trace := [] }

/-- One iteration of the `part_001` file loop (lines 704–742).  Unlike the
Bench variant, the read-error branch increments `totalFiles` before its
`continue`; like the Bench variant, that branch skips the 500 ms delay. -/
def step (s : LoopState) (f : FileCase) : LoopState :=
  let filename := filenameOf f.path
  let content := readFileContent f.disk
  if content = "" then
    { s with
      errors := s.errors ++ ["Failed to read file: " ++ filename]
      totalFiles := s.totalFiles + 1
      trace := s.trace ++ [SideEffect.readFile f.path] }
  else
    let s1 := { s with trace := s.trace ++ [SideEffect.readFile f.path, SideEffect.probe f.path] }
    let s2 :=
      match countTokens f.response with
      | some result =>
        { s1 with
          results := s1.results ++
            [FileResult.mk filename content.length (countWords content) result.tokens]
          successfulFiles := s1.successfulFiles + 1
          totalTokens := s1.totalTokens + result.tokens
          totalEstimatedCost := s1.totalEstimatedCost + result.estimatedCost }
      | none =>
        { s1 with errors := s1.errors ++ ["Token counting failed for file: " ++ filename] }
    { s2 with totalFiles := s2.totalFiles + 1, trace := s2.trace ++ [SideEffect.delay] }

/-- Environment of one `part_001` `processModel` invocation: the result of
model resolution and the corpus files (already enumerated and filtered). -/
structure Env where
  modelId : String
  modelInfo : Option Model
  files : List FileCase
deriving DecidableEq, Repr

/-- `processModel` of `src/unnamed/part_001` (lines 663–766): resolve the
model (not-found returns a report with one error and nothing probed),
then run the file loop and package the `ModelReport`. -/
def processModel (env : Env) : ModelReport × List SideEffect :=
  match env.modelInfo with
  | none =>
    ({ modelId := env.modelId
       modelInfo := none
       results := []
       stats :=
         { totalFiles := 0
           successfulFiles := 0
           totalTokens := 0
           totalEstimatedCost := 0
           errors := ["Model " ++ env.modelId ++ " not found in API"] } },
     [SideEffect.resolveModel])
  | some info =>
    let s := env.files.foldl step initLoopState
    ({ modelId := env.modelId
       modelInfo := some info
       results := s.results
       stats :=
         { totalFiles := s.totalFiles
           successfulFiles := s.successfulFiles
           totalTokens := s.totalTokens
           totalEstimatedCost := s.totalEstimatedCost
           errors := s.errors } },
     SideEffect.resolveModel :: s.trace)

/-- The `summary` sub-record of a `Report`. -/
structure Summary where
  totalModels : Nat
  processedModels : Nat
  modelsWithErrors : Nat
  totalFiles : Nat
  totalSuccessfulFiles : Nat
  totalErrors : Nat
  totalTokens : Nat
  totalCost : Rat
deriving DecidableEq, Repr

/-- The summary computation of `part_001`'s `main` (lines 873–896). -/
def summarize (modelReports : List ModelReport) : Summary :=
  { totalModels := modelReports.length
    processedModels := (modelReports.filter (fun r => r.modelInfo.isSome)).length
    modelsWithErrors := (modelReports.filter (fun r => r.stats.errors.length > 0)).length
    totalFiles := modelReports.foldl (fun sum r => sum + r.stats.totalFiles) 0
    totalSuccessfulFiles := modelReports.foldl (fun sum r => sum + r.stats.successfulFiles) 0
    totalErrors := modelReports.foldl (fun sum r => sum + r.stats.errors.length) 0
    totalTokens := modelReports.foldl (fun sum r => sum + r.stats.totalTokens) 0
    totalCost := modelReports.foldl (fun sum r => sum + r.stats.totalEstimatedCost) 0 }

/-- One entry of the persistent `reports.json` run index
(`reportIndexEntry` built in `main`, lines 924–928). -/
structure RunIndexEntry where
  filename : String
  timestamp : String
  summary : Summary
deriving DecidableEq, Repr

/-- The per-run report filename
`${timestamp}_${langCount}langs_${totalModels}models.json` (line 904). -/
def reportFileName (timestamp : String) (langCount totalModels : Nat) : String :=
  timestamp ++ "_" ++ toString langCount ++ "langs_" ++ toString totalModels ++ "models.json"

/-- The `reports.json` load step of `main` (lines 912–921): an unreadable
file (outer `none`) or a body that is not a JSON array (inner `none`)
starts a fresh empty list; otherwise the parsed array is kept. -/
def loadIndex (fileState : Option (Option (List RunIndexEntry))) : List RunIndexEntry :=
  match fileState with
  | some (some entries) => entries
  | _ => []

/-- The index-persisting tail of `main` (lines 898–932), applied after the
existing `reports.json` was loaded: compute the summary and the report
filename from the collected `ModelReport`s and push exactly one new entry,
unconditionally — whatever the per-model outcomes were. -/
def mainFinalize (existingIndex : List RunIndexEntry) (modelReports : List ModelReport)
    (timestamp : String) : List RunIndexEntry :=
  let summary := summarize modelReports
  let langCount :=
    match modelReports with
    | [] => 0
    | r :: _ => r.stats.totalFiles
  existingIndex ++ [{ filename := reportFileName timestamp langCount summary.totalModels
                      timestamp := timestamp
                      summary := summary }]

/-- A sequence of run invocations against the same output directory,
starting from an empty index: each run loads the index the previous run
wrote and finalizes on top of it. -/
def runSequence (runs : List (List ModelReport × String)) : List RunIndexEntry :=
  runs.foldl (fun idx run => mainFinalize idx run.1 run.2) []

end Rep

/-- Number of 500 ms delays in an effect trace. -/
def countDelays (trace : List SideEffect) : Nat :=
  trace.count SideEffect.delay

lemma countTokens_pos (resp : ProbeResponse) (r : TokenCountResult)
    (h : countTokens resp = some r) : 1 ≤ r.tokens := by
  cases resp with
  | transportError => simp [countTokens] at h
  | httpError status => simp [countTokens] at h
  | parseError => simp [countTokens] at h
  | ok usage =>
    cases usage with
    | none => simp [countTokens] at h
    | some u =>
      cases hu : u.prompt_tokens with
      | none => simp [countTokens, hu] at h
      | some t =>
        by_cases ht : t = 0
        · simp [countTokens, hu, ht] at h
        · simp [countTokens, hu, ht] at h
          cases h
          exact Nat.one_le_iff_ne_zero.mpr ht

lemma rep_step_tokens_pos (s : Rep.LoopState) (f : FileCase)
    (h : ∀ r ∈ s.results, 1 ≤ r.tokens) :
    ∀ r ∈ (Rep.step s f).results, 1 ≤ r.tokens := by
  unfold Rep.step
  by_cases hc : readFileContent f.disk = ""
  · simpa [hc] using h
  · simp only [hc, if_false]
    cases hct : countTokens f.response with
    | none => simpa [hct] using h
    | some result =>
      simp only [hct]
      intro r hr
      simp only [List.mem_append, List.mem_singleton] at hr
      rcases hr with hr | hr
      · exact h r hr
      · subst hr
        exact countTokens_pos _ _ hct

lemma rep_foldl_tokens_pos : ∀ (files : List FileCase) (s : Rep.LoopState),
    (∀ r ∈ s.results, 1 ≤ r.tokens) →
    ∀ r ∈ (files.foldl Rep.step s).results, 1 ≤ r.tokens := by
  intro files
  induction files with
  | nil => intro s h; simpa using h
  | cons f fs ih =>
    intro s h
    simp only [List.foldl_cons]
    exact ih _ (rep_step_tokens_pos s f h)

/-- Claim C6: on a probe call whose transport, HTTP status and JSON parse
all succeeded, `countTokens` fails whenever `usage.prompt_tokens` is
absent, and on success returns `usage.prompt_tokens` as the token count
with `usage.cost || usage.estimated_cost || 0` as the estimated cost. -/
theorem countTokens_requires_prompt_tokens :
    (countTokens (ProbeResponse.ok none) = none) ∧
    (∀ u : Usage, u.prompt_tokens = none → countTokens (ProbeResponse.ok (some u)) = none) ∧
    (∀ (u : Usage) (r : TokenCountResult), countTokens (ProbeResponse.ok (some u)) = some r →
      u.prompt_tokens = some r.tokens ∧
      r.estimatedCost = jsNumOr u.cost (jsNumOr u.estimated_cost 0)) := by
  refine ⟨rfl, ?_, ?_⟩
  · intro u hu
    simp [countTokens, hu]
  · intro u r h
    cases hu : u.prompt_tokens with
    | none => simp [countTokens, hu] at h
    | some t =>
      by_cases ht : t = 0
      · simp [countTokens, hu, ht] at h
      · have h' : some (TokenCountResult.mk t (jsNumOr u.cost (jsNumOr u.estimated_cost 0)))
            = some r := by
          rw [← h]; simp [countTokens, hu, ht]
        injection h' with h'
        subst h'
        exact ⟨rfl, rfl⟩

/-- Witness for Claim C6 at concrete responses: a parsed body with a
`usage` object missing `prompt_tokens` fails, and a body with
`prompt_tokens = 5`, no `cost` and `estimated_cost = 2` succeeds with
token count 5 and cost 2. -/
theorem countTokens_requires_prompt_tokens_witness :
    countTokens (ProbeResponse.ok (some (Usage.mk none (some 1) none))) = none ∧
    ((Usage.mk (some 5) none (some 2)).prompt_tokens = some (TokenCountResult.mk 5 2).tokens ∧
      (TokenCountResult.mk 5 2).estimatedCost
        = jsNumOr (Usage.mk (some 5) none (some 2)).cost
            (jsNumOr (Usage.mk (some 5) none (some 2)).estimated_cost 0)) :=
  ⟨countTokens_requires_prompt_tokens.2.1 (Usage.mk none (some 1) none) rfl,
   countTokens_requires_prompt_tokens.2.2 (Usage.mk (some 5) none (some 2))
     (TokenCountResult.mk 5 2) (by decide)⟩

/-- Concrete environment for the C9 witness: one readable five-character
file whose probe reports 3 prompt tokens. -/
def c9Env : Rep.Env :=
  { modelId := "m1"
    modelInfo := some (Model.mk "m1")
    files := [{ path := "./udhr/eng.txt"
                disk := some "hello"
                response := ProbeResponse.ok (some (Usage.mk (some 3) none none)) }] }

/-- Claim C9: a probe response reporting `usage.prompt_tokens = 0` is
treated as a probe failure (`null`) because the presence check is a
truthiness test, and consequently every recorded `ProbeResult` carries a
token count of at least 1. -/
theorem countTokens_zero_prompt_tokens_fails :
    (∀ cost ec : Option Rat,
      countTokens (ProbeResponse.ok (some (Usage.mk (some 0) cost ec))) = none) ∧
    (∀ (env : Rep.Env) (r : Rep.FileResult),
      r ∈ (Rep.processModel env).1.results → 1 ≤ r.tokens) := by
  constructor
  · intro cost ec
    simp [countTokens]
  · intro env r hr
    cases hm : env.modelInfo with
    | none => simp [Rep.processModel, hm] at hr
    | some info =>
      simp only [Rep.processModel, hm] at hr
      exact rep_foldl_tokens_pos env.files Rep.initLoopState (by simp [Rep.initLoopState]) r hr

/-- Witness for Claim C9: a zero-token response with both cost fields
present still fails, and the single result recorded in `c9Env` has a
token count of at least 1. -/
theorem countTokens_zero_prompt_tokens_fails_witness :
    countTokens (ProbeResponse.ok (some (Usage.mk (some 0) (some 1) (some 1)))) = none ∧
    1 ≤ (Rep.FileResult.mk "eng.txt" 5 1 3).tokens :=
  ⟨countTokens_zero_prompt_tokens_fails.1 (some 1) (some 1),
   countTokens_zero_prompt_tokens_fails.2 c9Env (Rep.FileResult.mk "eng.txt" 5 1 3) (by decide)⟩

/-- Concrete environment for C10: the model resolves, no prior artifacts
exist, and the corpus holds one existing file whose content is the empty
string. -/
def c10Env : Bench.Env :=
  { modelId := "m1"
    override := false
    csvExists := false
    jsonExists := false
    modelInfo := some (Model.mk "m1")
    files := [{ path := "./udhr/eng.txt"
                disk := some ""
                response := ProbeResponse.ok (some (Usage.mk (some 3) none none)) }]
    writeJsonOk := true
    writeCsvOk := true }

/-- Claim C10: an existing corpus file with empty content is
indistinguishable from an unreadable one — `readFileContent` maps a read
error to `""`, the loop body behaves identically on the two cases,
records a read-failure error and never probes — and such a file therefore
blocks artifact persistence for its model instead of producing a
zero-token result. -/
theorem empty_file_indistinguishable_from_unreadable :
    (readFileContent none = "") ∧
    (∀ (modelId : String) (s : Bench.LoopState) (path : String) (resp : ProbeResponse),
      Bench.step modelId s (FileCase.mk path (some "") resp)
        = Bench.step modelId s (FileCase.mk path none resp) ∧
      (Bench.step modelId s (FileCase.mk path (some "") resp)).errors
        = s.errors ++ ["Failed to read file: " ++ filenameOf path] ∧
      (Bench.step modelId s (FileCase.mk path (some "") resp)).trace
        = s.trace ++ [SideEffect.readFile path]) ∧
    ((Bench.processModel c10Env).2.2 = [] ∧
      (Bench.processModel c10Env).1.errors = ["Failed to read file: eng.txt"] ∧
      (Bench.processModel c10Env).1.successfulFiles = 0) := by
  refine ⟨rfl, ?_, by decide⟩
  intro modelId s path resp
  refine ⟨rfl, ?_, ?_⟩ <;> simp [Bench.step, readFileContent]

/-- Claim C1: in a non-skipped Bench `processModel` run whose model
resolved, if the error list is non-empty at the end of the file loop then
neither the model-metadata JSON nor the CSV artifact is written (so prior
artifacts are untouched), and conversely any written artifact implies the
loop ended with zero errors. -/
theorem artifacts_written_only_without_errors (env : Bench.Env) (m : Model)
    (hskip : (!env.override && (env.csvExists || env.jsonExists)) = false)
    (hres : env.modelInfo = some m) :
    ((Bench.loopFinal env).errors.length > 0 → (Bench.processModel env).2.2 = []) ∧
    ((Bench.processModel env).2.2 ≠ [] → (Bench.loopFinal env).errors = []) := by
  constructor
  · intro herr
    simp [Bench.processModel, hskip, hres, herr]
  · intro hw
    by_cases herr : (Bench.loopFinal env).errors.length > 0
    · exact absurd (by simp [Bench.processModel, hskip, hres, herr]) hw
    · exact List.length_eq_zero.mp (Nat.eq_zero_of_not_pos herr)

/-- Concrete environment for the C1 witness: no prior artifacts, a
resolved model, and a single file whose probe response fails to parse, so
the loop ends with one error. -/
def c1Env : Bench.Env :=
  { modelId := "m1"
    override := false
    csvExists := false
    jsonExists := false
    modelInfo := some (Model.mk "m1")
    files := [{ path := "./udhr/eng.txt"
                disk := some "text"
                response := ProbeResponse.parseError }]
    writeJsonOk := true
    writeCsvOk := true }

/-- Witness for Claim C1: on `c1Env` the loop ends with an error and no
artifact is written. -/
theorem artifacts_written_only_without_errors_witness :
    (Bench.processModel c1Env).2.2 = [] :=
  (artifacts_written_only_without_errors c1Env (Model.mk "m1") rfl rfl).1 (by decide)

/-- Claim C3: without `--override`, when a persisted artifact for the
model already exists, `processModel` returns the zero-cost `Skipped`
stats with an empty error list, performs no model resolution, no file
read and no probe, and writes nothing. -/
theorem skip_when_artifacts_exist (env : Bench.Env)
    (hov : env.override = false) (hex : env.csvExists = true ∨ env.jsonExists = true) :
    Bench.processModel env =
      ({ modelId := env.modelId
         totalFiles := 0
         successfulFiles := 0
         errors := []
         totalTokens := 0
         totalEstimatedCost := 0
         skipped := true
         hasErrors := false }, [], []) := by
  rcases hex with h | h <;> simp [Bench.processModel, hov, h]

/-- Concrete environment for the C3 witness: an existing CSV artifact,
no override, a resolvable model and one pending file. -/
def c3Env : Bench.Env :=
  { modelId := "m1"
    override := false
    csvExists := true
    jsonExists := false
    modelInfo := some (Model.mk "m1")
    files := [{ path := "./udhr/eng.txt"
                disk := some "text"
                response := ProbeResponse.ok (some (Usage.mk (some 3) none none)) }]
    writeJsonOk := true
    writeCsvOk := true }

/-- Witness for Claim C3: on `c3Env` the invocation is skipped with an
empty trace and no writes. -/
theorem skip_when_artifacts_exist_witness :
    Bench.processModel c3Env =
      ({ modelId := "m1"
         totalFiles := 0
         successfulFiles := 0
         errors := []
         totalTokens := 0
         totalEstimatedCost := 0
         skipped := true
         hasErrors := false }, [], []) :=
  skip_when_artifacts_exist c3Env rfl (Or.inl rfl)

/-- Claim C2: the `reports.json` run index is append-only — finalizing a
run appends exactly one `RunIndexEntry` whatever the per-model reports
contain, the previously stored entries survive unchanged as a prefix, a
sequence of N runs starting from an empty index yields exactly N entries,
and loading a well-formed index returns it verbatim. -/
theorem run_index_append_only :
    (∀ (idx : List Rep.RunIndexEntry) (mrs : List Rep.ModelReport) (ts : String),
      (Rep.mainFinalize idx mrs ts).length = idx.length + 1) ∧
    (∀ (idx : List Rep.RunIndexEntry) (mrs : List Rep.ModelReport) (ts : String),
      (Rep.mainFinalize idx mrs ts).take idx.length = idx) ∧
    (∀ runs : List (List Rep.ModelReport × String),
      (Rep.runSequence runs).length = runs.length) ∧
    (∀ idx : List Rep.RunIndexEntry, Rep.loadIndex (some (some idx)) = idx) := by
  refine ⟨?_, ?_, ?_, fun idx => rfl⟩
  · intro idx mrs ts
    simp [Rep.mainFinalize]
  · intro idx mrs ts
    simp [Rep.mainFinalize]
  · intro runs
    have key : ∀ (rs : List (List Rep.ModelReport × String)) (idx : List Rep.RunIndexEntry),
        (rs.foldl (fun i r => Rep.mainFinalize i r.1 r.2) idx).length
          = idx.length + rs.length := by
      intro rs
      induction rs with
      | nil => intro idx; simp
      | cons r rs ih =>
        intro idx
        simp only [List.foldl_cons]
        rw [ih]
        simp [Rep.mainFinalize]
        omega
    simpa [Rep.runSequence] using key runs []

/-- Final state of the `part_001` file loop. -/
def Rep.loopFinal (env : Rep.Env) : Rep.LoopState :=
  env.files.foldl Rep.step Rep.initLoopState

lemma bench_step_sf_err (modelId : String) (s : Bench.LoopState) (f : FileCase) :
    (Bench.step modelId s f).successfulFiles + (Bench.step modelId s f).errors.length
      = s.successfulFiles + s.errors.length + 1 := by
  unfold Bench.step
  by_cases hc : readFileContent f.disk = ""
  · simp [hc]
    omega
  · cases hct : countTokens f.response <;> simp [hc, hct] <;> omega

lemma bench_step_delay (modelId : String) (s : Bench.LoopState) (f : FileCase) :
    countDelays (Bench.step modelId s f).trace
      = countDelays s.trace + (if readFileContent f.disk = "" then 0 else 1) := by
  unfold Bench.step countDelays
  by_cases hc : readFileContent f.disk = ""
  · simp [hc, List.count_append]
  · cases hct : countTokens f.response <;>
      simp [hc, hct, List.count_append, List.count_cons, List.count_singleton]

lemma bench_step_inv (modelId : String) (s : Bench.LoopState) (f : FileCase)
    (h1 : s.csvLines.length = s.successfulFiles + 1)
    (h2 : s.successfulFiles ≤ s.totalFiles)
    (h3 : s.totalFiles ≤ s.successfulFiles + s.errors.length) :
    (Bench.step modelId s f).csvLines.length = (Bench.step modelId s f).successfulFiles + 1 ∧
    (Bench.step modelId s f).successfulFiles ≤ (Bench.step modelId s f).totalFiles ∧
    (Bench.step modelId s f).totalFiles
      ≤ (Bench.step modelId s f).successfulFiles + (Bench.step modelId s f).errors.length := by
  unfold Bench.step
  by_cases hc : readFileContent f.disk = ""
  · simp [hc]
    omega
  · cases hct : countTokens f.response <;> simp [hc, hct] <;> omega

lemma bench_foldl_sf_err (modelId : String) :
    ∀ (files : List FileCase) (s : Bench.LoopState),
      (files.foldl (Bench.step modelId) s).successfulFiles
        + (files.foldl (Bench.step modelId) s).errors.length
        = s.successfulFiles + s.errors.length + files.length := by
  intro files
  induction files with
  | nil => intro s; simp
  | cons f fs ih =>
    intro s
    simp only [List.foldl_cons, List.length_cons]
    rw [ih]
    have := bench_step_sf_err modelId s f
    omega

lemma bench_foldl_delay (modelId : String) :
    ∀ (files : List FileCase) (s : Bench.LoopState),
      countDelays ((files.foldl (Bench.step modelId) s)).trace
        = countDelays s.trace + (files.filter (fun f => readFileContent f.disk != "")).length := by
  intro files
  induction files with
  | nil => intro s; simp
  | cons f fs ih =>
    intro s
    simp only [List.foldl_cons]
    rw [ih]
    have := bench_step_delay modelId s f
    by_cases hc : readFileContent f.disk = "" <;>
      simp [hc, List.filter_cons] at this ⊢ <;> omega

lemma bench_foldl_inv (modelId : String) :
    ∀ (files : List FileCase) (s : Bench.LoopState),
      s.csvLines.length = s.successfulFiles + 1 →
      s.successfulFiles ≤ s.totalFiles →
      s.totalFiles ≤ s.successfulFiles + s.errors.length →
      ((files.foldl (Bench.step modelId) s).csvLines.length
          = (files.foldl (Bench.step modelId) s).successfulFiles + 1 ∧
        (files.foldl (Bench.step modelId) s).successfulFiles
          ≤ (files.foldl (Bench.step modelId) s).totalFiles ∧
        (files.foldl (Bench.step modelId) s).totalFiles
          ≤ (files.foldl (Bench.step modelId) s).successfulFiles
            + (files.foldl (Bench.step modelId) s).errors.length) := by
  intro files
  induction files with
  | nil => intro s h1 h2 h3; exact ⟨h1, h2, h3⟩
  | cons f fs ih =>
    intro s h1 h2 h3
    simp only [List.foldl_cons]
    obtain ⟨g1, g2, g3⟩ := bench_step_inv modelId s f h1 h2 h3
    exact ih _ g1 g2 g3

lemma rep_step_sum (s : Rep.LoopState) (f : FileCase) :
    (Rep.step s f).results.length + (Rep.step s f).errors.length
      = s.results.length + s.errors.length + 1 := by
  unfold Rep.step
  by_cases hc : readFileContent f.disk = ""
  · simp [hc]
    omega
  · cases hct : countTokens f.response <;> simp [hc, hct] <;> omega

lemma rep_step_delay (s : Rep.LoopState) (f : FileCase) :
    countDelays (Rep.step s f).trace
      = countDelays s.trace + (if readFileContent f.disk = "" then 0 else 1) := by
  unfold Rep.step countDelays
  by_cases hc : readFileContent f.disk = ""
  · simp [hc, List.count_append]
  · cases hct : countTokens f.response <;>
      simp [hc, hct, List.count_append, List.count_cons, List.count_singleton]

lemma rep_step_inv (s : Rep.LoopState) (f : FileCase)
    (h1 : s.results.length = s.successfulFiles)
    (h2 : s.totalFiles = s.successfulFiles + s.errors.length) :
    (Rep.step s f).results.length = (Rep.step s f).successfulFiles ∧
    (Rep.step s f).totalFiles
      = (Rep.step s f).successfulFiles + (Rep.step s f).errors.length := by
  unfold Rep.step
  by_cases hc : readFileContent f.disk = ""
  · simp [hc]
    omega
  · cases hct : countTokens f.response <;> simp [hc, hct] <;> omega

lemma rep_foldl_sum :
    ∀ (files : List FileCase) (s : Rep.LoopState),
      (files.foldl Rep.step s).results.length + (files.foldl Rep.step s).errors.length
        = s.results.length + s.errors.length + files.length := by
  intro files
  induction files with
  | nil => intro s; simp
  | cons f fs ih =>
    intro s
    simp only [List.foldl_cons, List.length_cons]
    rw [ih]
    have := rep_step_sum s f
    omega

lemma rep_foldl_delay :
    ∀ (files : List FileCase) (s : Rep.LoopState),
      countDelays ((files.foldl Rep.step s)).trace
        = countDelays s.trace + (files.filter (fun f => readFileContent f.disk != "")).length := by
  intro files
  induction files with
  | nil => intro s; simp
  | cons f fs ih =>
    intro s
    simp only [List.foldl_cons]
    rw [ih]
    have := rep_step_delay s f
    by_cases hc : readFileContent f.disk = "" <;>
      simp [hc, List.filter_cons] at this ⊢ <;> omega

lemma rep_foldl_inv :
    ∀ (files : List FileCase) (s : Rep.LoopState),
      s.results.length = s.successfulFiles →
      s.totalFiles = s.successfulFiles + s.errors.length →
      ((files.foldl Rep.step s).results.length = (files.foldl Rep.step s).successfulFiles ∧
        (files.foldl Rep.step s).totalFiles
          = (files.foldl Rep.step s).successfulFiles
            + (files.foldl Rep.step s).errors.length) := by
  intro files
  induction files with
  | nil => intro s h1 h2; exact ⟨h1, h2⟩
  | cons f fs ih =>
    intro s h1 h2
    simp only [List.foldl_cons]
    obtain ⟨g1, g2⟩ := rep_step_inv s f h1 h2
    exact ih _ g1 g2

/-- Concrete environment refuting Claim C4 on the Bench variant: the model
resolves, nothing is skipped, and the single corpus file is unreadable. -/
def c4Env : Bench.Env :=
  { modelId := "m1"
    override := false
    csvExists := false
    jsonExists := false
    modelInfo := some (Model.mk "m1")
    files := [{ path := "./udhr/eng.txt"
                disk := none
                response := ProbeResponse.ok (some (Usage.mk (some 3) none none)) }]
    writeJsonOk := true
    writeCsvOk := true }

/-- Counterexample to Claim C4 as stated: in the Bench `processModel`
(`run.ts`), the read-error branch `continue`s before `totalFiles++`, so
with one unreadable file the final stats have `totalFiles = 0`,
`successfulFiles = 0` and one error — violating
`totalFiles = successfulFiles + len(errors)` for a non-skipped invocation
whose model was resolved. -/
theorem stats_relationship_counterexample :
    c4Env.modelInfo.isSome = true ∧
    (Bench.processModel c4Env).1.skipped = false ∧
    (Bench.processModel c4Env).1.totalFiles = 0 ∧
    (Bench.processModel c4Env).1.successfulFiles = 0 ∧
    (Bench.processModel c4Env).1.errors.length = 1 ∧
    ¬ ((Bench.processModel c4Env).1.totalFiles
        = (Bench.processModel c4Env).1.successfulFiles
          + (Bench.processModel c4Env).1.errors.length) := by
  decide

/-- Claim C4, amended: the result-sequence length equals
`successfulFiles` and `totalFiles ≥ successfulFiles` in both variants;
`totalFiles = successfulFiles + len(errors)` holds in the `part_001`
variant, while in the `run.ts` variant read-failed files are recorded in
`errors` but not counted in `totalFiles`, so only
`totalFiles ≤ successfulFiles + len(errors)` holds there. -/
theorem stats_relationship_amended :
    (∀ env : Bench.Env,
      (Bench.loopFinal env).csvLines.length = (Bench.loopFinal env).successfulFiles + 1 ∧
      (Bench.loopFinal env).successfulFiles ≤ (Bench.loopFinal env).totalFiles ∧
      (Bench.loopFinal env).totalFiles
        ≤ (Bench.loopFinal env).successfulFiles + (Bench.loopFinal env).errors.length) ∧
    (∀ (env : Rep.Env) (m : Model), env.modelInfo = some m →
      ((Rep.processModel env).1.results.length
          = (Rep.processModel env).1.stats.successfulFiles ∧
        (Rep.processModel env).1.stats.successfulFiles
          ≤ (Rep.processModel env).1.stats.totalFiles ∧
        (Rep.processModel env).1.stats.totalFiles
          = (Rep.processModel env).1.stats.successfulFiles
            + (Rep.processModel env).1.stats.errors.length)) := by
  constructor
  · intro env
    exact bench_foldl_inv env.modelId env.files Bench.initLoopState rfl (by decide) (by decide)
  · intro env m hm
    have key := rep_foldl_inv env.files Rep.initLoopState rfl rfl
    simp only [Rep.processModel, hm]
    exact ⟨key.1, by omega, key.2⟩

/-- Witness for the amended Claim C4 at `c9Env` (one successful file). -/
theorem stats_relationship_amended_witness :
    (Rep.processModel c9Env).1.results.length
        = (Rep.processModel c9Env).1.stats.successfulFiles ∧
      (Rep.processModel c9Env).1.stats.successfulFiles
        ≤ (Rep.processModel c9Env).1.stats.totalFiles ∧
      (Rep.processModel c9Env).1.stats.totalFiles
        = (Rep.processModel c9Env).1.stats.successfulFiles
          + (Rep.processModel c9Env).1.stats.errors.length :=
  stats_relationship_amended.2 c9Env (Model.mk "m1") rfl

/-- Concrete environment refuting the delay clause of Claim C5: the model
resolves and the single corpus file is unreadable. -/
def c5Env : Bench.Env :=
  { modelId := "m1"
    override := false
    csvExists := false
    jsonExists := false
    modelInfo := some (Model.mk "m1")
    files := [{ path := "./udhr/rus.txt"
                disk := none
                response := ProbeResponse.ok (some (Usage.mk (some 3) none none)) }]
    writeJsonOk := true
    writeCsvOk := true }

/-- Counterexample to Claim C5 as stated: with one unreadable file the
loop records its error but awaits zero delays, while the claim requires a
delay after every file including read failures. -/
theorem per_file_delay_counterexample :
    c5Env.files.length = 1 ∧
    (Bench.loopFinal c5Env).errors.length = 1 ∧
    countDelays (Bench.loopFinal c5Env).trace = 0 := by
  decide

/-- Claim C5, amended: in both variants the loop never aborts — every
file contributes exactly one outcome, an appended result/CSV row or an
appended error — and the fixed 500 ms delay is awaited exactly after the
files whose content was read successfully (whether the probe succeeded or
failed); a file whose read failed skips the delay via `continue`. -/
theorem per_file_outcome_and_delay_amended :
    (∀ env : Bench.Env,
      (Bench.loopFinal env).successfulFiles + (Bench.loopFinal env).errors.length
        = env.files.length ∧
      countDelays (Bench.loopFinal env).trace
        = (env.files.filter (fun f => readFileContent f.disk != "")).length) ∧
    (∀ env : Rep.Env,
      (Rep.loopFinal env).results.length + (Rep.loopFinal env).errors.length
        = env.files.length ∧
      countDelays (Rep.loopFinal env).trace
        = (env.files.filter (fun f => readFileContent f.disk != "")).length) := by
  constructor
  · intro env
    constructor
    · have := bench_foldl_sf_err env.modelId env.files Bench.initLoopState
      simpa [Bench.loopFinal, Bench.initLoopState] using this
    · have := bench_foldl_delay env.modelId env.files Bench.initLoopState
      simpa [Bench.loopFinal, Bench.initLoopState, countDelays] using this
  · intro env
    constructor
    · have := rep_foldl_sum env.files Rep.initLoopState
      simpa [Rep.loopFinal, Rep.initLoopState] using this
    · have := rep_foldl_delay env.files Rep.initLoopState
      simpa [Rep.loopFinal, Rep.initLoopState, countDelays] using this

lemma string_append_left_cancel (a b c : String) (h : a ++ b = a ++ c) : b = c := by
  cases a with | mk as =>
  cases b with | mk bs =>
  cases c with | mk cs =>
  have h2 : as ++ bs = as ++ cs := congrArg String.data h
  exact congrArg String.mk (List.append_cancel_left h2)

/-- Claim C7: `getFilesToProcess` returns the corpus's `.txt` files (the
reserved `models.txt` excluded) sorted lexicographically — all results
share the constant `./udhr/` prefix, so path order is filename order —
and a language filter keeps exactly the files whose name with `.txt`
stripped equals the filter: filtering by `"rus"` can never include
`rus_sd.txt`, and on a directory holding both it yields only
`./udhr/rus.txt`. -/
theorem corpus_file_listing :
    (∀ (entries : List DirEntry) (lf : Option String),
      (getFilesToProcess entries lf).Sorted (· ≤ ·)) ∧
    (∀ (entries : List DirEntry) (lf : Option String) (p : String),
      p ∈ getFilesToProcess entries lf ↔
        ∃ e ∈ entries, e.isFile = true ∧ strEndsWith e.name ".txt" = true ∧
          e.name ≠ "models.txt" ∧ matchesLanguageFilter lf e.name = true ∧
          p = "./udhr/" ++ e.name) ∧
    (∀ entries : List DirEntry,
      "./udhr/rus_sd.txt" ∉ getFilesToProcess entries (some "rus")) ∧
    (getFilesToProcess
        [DirEntry.mk "rus_sd.txt" true, DirEntry.mk "rus.txt" true,
          DirEntry.mk "models.txt" true]
        (some "rus")
      = ["./udhr/rus.txt"]) := by
  have hmem : ∀ (entries : List DirEntry) (lf : Option String) (p : String),
      p ∈ getFilesToProcess entries lf ↔
        ∃ e ∈ entries, e.isFile = true ∧ strEndsWith e.name ".txt" = true ∧
          e.name ≠ "models.txt" ∧ matchesLanguageFilter lf e.name = true ∧
          p = "./udhr/" ++ e.name := by
    intro entries lf p
    unfold getFilesToProcess sortStrings
    rw [List.mem_insertionSort]
    simp only [List.mem_map, List.mem_filter, Bool.and_eq_true, bne_iff_ne, ne_eq]
    constructor
    · rintro ⟨e, ⟨he, ⟨⟨⟨h1, h2⟩, h3⟩, h4⟩⟩, rfl⟩
      exact ⟨e, he, h1, h2, h3, h4, rfl⟩
    · rintro ⟨e, he, h1, h2, h3, h4, rfl⟩
      exact ⟨e, ⟨he, ⟨⟨⟨h1, h2⟩, h3⟩, h4⟩⟩, rfl⟩
  refine ⟨?_, hmem, ?_, by decide⟩
  · intro entries lf
    exact List.sorted_insertionSort _ _
  · intro entries h
    rw [hmem entries (some "rus") _] at h
    obtain ⟨e, _, _, _, _, h4, hp⟩ := h
    have hname : "rus_sd.txt" = e.name :=
      string_append_left_cancel "./udhr/" "rus_sd.txt" e.name (by rw [← hp]; decide)
    rw [← hname] at h4
    exact absurd h4 (by decide)

/-- Claim C8: `getAllModels` accepts a bare array, an object with a `data`
array, or an object with a `models` array — preferring `data` when both
are arrays — normalizes all three to one list sorted by identifier, and
throws for every other response shape. -/
theorem models_response_normalization :
    (∀ ms : List Model, getAllModels (ModelsJson.arr ms) = Except.ok (sortModels ms)) ∧
    (∀ (ms : List Model) (f : JsonField),
      getAllModels (ModelsJson.obj (JsonField.arr ms) f) = Except.ok (sortModels ms)) ∧
    (∀ ms : List Model,
      getAllModels (ModelsJson.obj JsonField.absent (JsonField.arr ms))
        = Except.ok (sortModels ms)) ∧
    (∀ ms : List Model,
      getAllModels (ModelsJson.obj JsonField.nonArray (JsonField.arr ms))
        = Except.ok (sortModels ms)) ∧
    (getAllModels (ModelsJson.obj JsonField.absent JsonField.absent)
      = Except.error "Invalid response format from API: expected array or object with 'data' or 'models' property") ∧
    (getAllModels (ModelsJson.obj JsonField.absent JsonField.nonArray)
      = Except.error "Invalid response format from API: expected array or object with 'data' or 'models' property") ∧
    (getAllModels (ModelsJson.obj JsonField.nonArray JsonField.absent)
      = Except.error "Invalid response format from API: expected array or object with 'data' or 'models' property") ∧
    (getAllModels (ModelsJson.obj JsonField.nonArray JsonField.nonArray)
      = Except.error "Invalid response format from API: expected array or object with 'data' or 'models' property") ∧
    (getAllModels ModelsJson.prim
      = Except.error "Invalid response format from API: expected array or object") ∧
    (∀ ms : List Model,
      ((sortModels ms).map Model.id).Sorted (· ≤ ·) ∧ List.Perm (sortModels ms) ms) := by
  refine ⟨fun ms => rfl, ?_, fun ms => rfl, fun ms => rfl, rfl, rfl, rfl, rfl, rfl, ?_⟩
  · intro ms f
    cases f <;> rfl
  · intro ms
    constructor
    · have hs : List.Sorted modelIdLe (sortModels ms) :=
        List.sorted_insertionSort modelIdLe ms
      exact List.Pairwise.map Model.id (fun a b h => h) hs
    · exact List.perm_insertionSort modelIdLe ms

/-- Witness for Claim C7: the concrete directory listing containing both
`rus.txt` and `rus_sd.txt`, filtered by `"rus"`, evaluates to exactly
`./udhr/rus.txt`. -/
theorem corpus_file_listing_witness :
    getFilesToProcess
        [DirEntry.mk "rus_sd.txt" true, DirEntry.mk "rus.txt" true,
          DirEntry.mk "models.txt" true]
        (some "rus")
      = ["./udhr/rus.txt"] :=
  corpus_file_listing.2.2.2
